import Mathlib

/-!
# Verification of the supertoml resolution engine

A shallow embedding of the supertoml resolver (src/resolver.rs), its plugin
pipeline (src/plugins/*.rs) and the output formatter (src/formatter.rs),
together with proofs settling the frozen claims C1..C10 about the
natural-language specification.

Modelling conventions:
* `toml::Value` becomes the inductive `Value`; float and datetime payloads are
  carried as their rendered text (no claim depends on float arithmetic).
* `HashMap<String, V>` and `toml::map::Map<String, V>` become association
  lists with insert-replace semantics (`ainsert`) and first-match lookup
  (`alookup`); key sets stay unique exactly as in the source maps.
* The file system is a finite map from path to the parsed document: the
  external loader `load_toml_file` is lookup in that map (parse errors are
  not separately modelled, a path can map to a non-table root).
* The external template engine (minijinja) is an opaque rendering capability,
  exactly as the spec scopes it: a function from the set of registered
  custom function names, the template string and the variable context to a
  rendered string or a parse/render failure.  `Environment::new()` registers
  no custom functions; `create_template_environment` registers `env` and
  `env_or`.
* Rust recursion has no bound; the embedding threads explicit fuel, and a
  fuel-exhausted run returns `none` (distinct from every program outcome).
-/

/-- The `toml::Value` sum type (src uses the `toml` crate's value model). -/
inductive Value where
  | str : String → Value
  | int : Int → Value
  | float : String → Value
  | bool : Bool → Value
  | arr : List Value → Value
  | table : List (String × Value) → Value
  | datetime : String → Value

/-- First-match lookup in an association list (`Map::get` / `HashMap::get`). -/
def alookup {α : Type} : List (String × α) → String → Option α
  | [], _ => none
  | (k, v) :: rest, key => if k = key then some v else alookup rest key

/-- Insert-replace into an association list (`HashMap::insert`): replaces the
binding in place when the key is present, appends otherwise. -/
def ainsert {α : Type} : List (String × α) → String → α → List (String × α)
  | [], key, v => [(key, v)]
  | (k, w) :: rest, key, v =>
    if k = key then (k, v) :: rest else (k, w) :: ainsert rest key v

/-- `Vec<String>::contains` on the call stack. -/
def memStr : List String → String → Bool
  | [], _ => false
  | y :: rest, x => if y = x then true else memStr rest x

/-- Key membership in an association list. -/
def keyMem {α : Type} : List (String × α) → String → Bool
  | [], _ => false
  | (k, _) :: rest, key => if k = key then true else keyMem rest key

/-- All keys distinct (always true for lists built by `ainsert`, mirroring
the uniqueness of `HashMap` keys). -/
def keysNodup {α : Type} : List (String × α) → Bool
  | [] => true
  | (k, _) :: rest => if keyMem rest k then false else keysNodup rest

/-- `toml::Value::as_str`. -/
def Value.asStr : Value → Option String
  | .str s => some s
  | _ => none

/-- `toml::Value::as_array`. -/
def Value.asArray : Value → Option (List Value)
  | .arr a => some a
  | _ => none

/-- `toml::Value::as_table`. -/
def Value.asTable : Value → Option (List (String × Value))
  | .table t => some t
  | _ => none

/-- `s.starts_with(pat)` on character lists. -/
def hasPrefixL : List Char → List Char → Bool
  | _, [] => true
  | [], _ :: _ => false
  | c :: cs, p :: ps => if c = p then hasPrefixL cs ps else false

/-- `s.contains(pat)` (substring search) on character lists. -/
def hasInfixL : List Char → List Char → Bool
  | [], pat => pat.isEmpty
  | c :: cs, pat => if hasPrefixL (c :: cs) pat then true else hasInfixL cs pat

/-- The templating plugin's delimiter test:
`s.contains("\x7b\x7b") || s.contains("\x7b%")` (src/plugins/templating.rs). -/
def hasDelim (s : String) : Bool :=
  hasInfixL s.data ['\x7b', '\x7b'] || hasInfixL s.data ['\x7b', '%']

/-- `SuperTomlError` (src/error.rs).  `fileRead` carries the failing path. -/
inductive SuperTomlError where
  | fileRead : String → SuperTomlError
  | tomlParse : String → SuperTomlError
  | tableNotFound : String → SuperTomlError
  | invalidTableType : String → SuperTomlError
  | cycleDetected : String → SuperTomlError
  | pluginDeserialization : String → String → SuperTomlError
  | pluginError : String → String → SuperTomlError

/-- The `Display` implementation for `SuperTomlError` (src/error.rs). -/
def errMsg : SuperTomlError → String
  | .fileRead m => "Failed to read file: " ++ m
  | .tomlParse m => "Failed to parse TOML: " ++ m
  | .tableNotFound n => "Table '" ++ n ++ "' not found"
  | .invalidTableType n => "Item '" ++ n ++ "' is not a table"
  | .cycleDetected t => "Cycle detected when processing table '" ++ t ++ "'"
  | .pluginDeserialization p e =>
      "Plugin '" ++ p ++ "' failed to deserialize data: " ++ e
  | .pluginError p e => "Plugin '" ++ p ++ "' error: " ++ e

/-- Whether an error is already attributed to a plugin
(`PluginError` or `PluginDeserialization`). -/
def isTaggedError : SuperTomlError → Bool
  | .pluginError _ _ => true
  | .pluginDeserialization _ _ => true
  | _ => false

/-- The error-wrapping `map_err` closure of `process_plugins`
(src/resolver.rs lines 170-179): errors already tagged as plugin errors
pass through, anything else becomes `PluginError` attributed to the
current plugin with the original error's display text. -/
def wrap_plugin_error (plugin_name : String) : SuperTomlError → SuperTomlError
  | .pluginError p e => .pluginError p e
  | .pluginDeserialization p e => .pluginDeserialization p e
  | other => .pluginError plugin_name (errMsg other)

/-- `minijinja::Value` as far as the embedding needs it: the image of
`toml_value_to_jinja`. -/
inductive JinjaValue where
  | str : String → JinjaValue
  | int : Int → JinjaValue
  | float : String → JinjaValue
  | bool : Bool → JinjaValue
  | seq : List JinjaValue → JinjaValue
  | obj : List (String × JinjaValue) → JinjaValue

mutual
/-- `toml_value_to_jinja` (src/utils.rs; duplicated verbatim in
src/plugins/templating.rs). -/
def toml_value_to_jinja : Value → JinjaValue
  | .str s => .str s
  | .int i => .int i
  | .float f => .float f
  | .bool b => .bool b
  | .arr a => .seq (tomlListToJinja a)
  | .table t => .obj (tomlTableToJinja t)
  | .datetime dt => .str dt

def tomlListToJinja : List Value → List JinjaValue
  | [] => []
  | v :: rest => toml_value_to_jinja v :: tomlListToJinja rest

def tomlTableToJinja : List (String × Value) → List (String × JinjaValue)
  | [] => []
  | (k, v) :: rest => (k, toml_value_to_jinja v) :: tomlTableToJinja rest
end

/-- A template failure at the engine boundary: the template failed to parse,
or rendering failed. -/
inductive RenderErr where
  | parse : String → RenderErr
  | render : String → RenderErr

/-- The opaque external rendering capability (spec §1/§6): registered custom
function names, template string and variable context in; rendered string or
failure out. -/
abbrev RenderFn :=
  List String → String → List (String × JinjaValue) → Except RenderErr String

/-- `create_template_environment` (src/utils.rs) registers exactly the
custom functions `env` and `env_or`; the embedding identifies an environment
with its registered-function list, so `Environment::new()` is `[]`. -/
def create_template_environment : List String := ["env", "env_or"]

/-- Session-constant externals: the rendering capability and the file
system seen by `load_toml_file`. -/
structure Ctx where
  render : RenderFn
  fs : List (String × Value)

/-- `load_toml_file` (src/loader.rs) at the modelled boundary: look the path
up in the file-system map; a missing path is the `FileRead` error. -/
def load_toml_file (fs : List (String × Value)) (path : String) :
    Except SuperTomlError Value :=
  match alookup fs path with
  | none => .error (.fileRead path)
  | some v => .ok v

/-- Working values of one table, `HashMap<String, toml::Value>`. -/
abbrev TV := List (String × Value)

/-- The plugin pipeline entries.  The five plugins the claims concern; the
source's `NoopPlugin` is omitted (its `process` impl does not even match the
`Plugin` trait signature and no claim mentions it). -/
inductive PluginId where
  | beforeP | importP | templatingP | afterP | referenceP

/-- `Plugin::name()` for each built-in plugin. -/
def PluginId.pname : PluginId → String
  | .beforeP => "before"
  | .importP => "import"
  | .templatingP => "templating"
  | .afterP => "after"
  | .referenceP => "reference"

/-- The pipeline wired up in src/main.rs. -/
def stdPlugins : List PluginId :=
  [.beforeP, .importP, .templatingP, .afterP]

/-- The `Resolver` state (src/resolver.rs). -/
structure Resolver where
  plugins : List PluginId
  values : TV
  call_stack : List String
  toml_file : Option Value
  file_path : Option String
  meta_values : TV

/-- The body of `add_values_to_resolver`'s loop (src/utils.rs): insert every
pair of `table_values` into the accumulated values. -/
def add_values : TV → TV → TV
  | vals, [] => vals
  | vals, (k, v) :: rest => add_values (ainsert vals k v) rest

/-- `add_values_to_resolver` (src/utils.rs). -/
def add_values_to_resolver (st : Resolver) (tv : TV) : Resolver :=
  { st with values := add_values st.values tv }

/-- `get_table_from_loaded_file` (src/resolver.rs lines 185-206). -/
def get_table_from_loaded_file (st : Resolver) (table_name : String) :
    Except SuperTomlError (List (String × Value)) :=
  match st.toml_file with
  | none => .error (.tableNotFound "No TOML file loaded")
  | some f =>
    match f with
    | .table root =>
      match alookup root table_name with
      | none => .error (.tableNotFound table_name)
      | some v =>
        match v with
        | .table t => .ok t
        | _ => .error (.invalidTableType table_name)
    | _ => .error (.invalidTableType "root")

/-- The partition loop in `resolve_table_recursive` (src/resolver.rs lines
135-140): every entry except the reserved key `"_"` goes into the working
values. -/
def table_values_of : List (String × Value) → TV
  | [] => []
  | (k, v) :: rest =>
    if k = "_" then table_values_of rest else (k, v) :: table_values_of rest

/-- Conversion of a context map for the template engine
(`context.iter().map(toml_value_to_jinja).collect()` in
src/plugins/templating.rs). -/
def jinjaCtx (vals : TV) : List (String × JinjaValue) :=
  vals.map (fun kv => (kv.1, toml_value_to_jinja kv.2))

/-- `process_value_with_jinja` (src/plugins/templating.rs lines 28-64):
a fresh `Environment::new()` (no custom functions registered), and only
string values containing a delimiter are rendered; every other value is
returned as a clone, with no recursion into arrays or tables. -/
def process_value_with_jinja (render : RenderFn) (value : Value)
    (context : TV) : Except SuperTomlError Value :=
  match value with
  | .str s =>
    if hasDelim s then
      match render [] s (jinjaCtx context) with
      | .error (.parse m) =>
        .error (.pluginError "templating" ("Template error: " ++ m))
      | .error (.render m) =>
        .error (.pluginError "templating" ("Render error: " ++ m))
      | .ok rendered => .ok (.str rendered)
    else .ok (.str s)
  | v => .ok v

/-- The `map`/`collect::<Result<HashMap<_,_>>>` of `TemplatingPlugin::process`:
transform every entry's value, failing on the first error. -/
def process_entries (render : RenderFn) (vals : TV) : TV →
    Except SuperTomlError TV
  | [] => .ok []
  | (k, v) :: rest =>
    match process_value_with_jinja render v vals with
    | .error e => .error e
    | .ok v' =>
      match process_entries render vals rest with
      | .error e => .error e
      | .ok rest' => .ok ((k, v') :: rest')

/-- `TemplatingPlugin::process` (src/plugins/templating.rs lines 71-92):
transform all entries against the resolver's current values, replace the
working values with the transformed set, then merge them into the
resolver's values. -/
def templating_process (ctx : Ctx) (st : Resolver) (tv : TV) :
    Resolver × TV × Except SuperTomlError Unit :=
  match process_entries ctx.render st.values tv with
  | .error e => (st, tv, .error e)
  | .ok tv' => (add_values_to_resolver st tv', tv', .ok ())

/-- `ImportConfig` (src/plugins/import.rs). -/
structure ImportConfig where
  file : String
  table : String
  key_format : Option String

/-- serde decode of one `ImportConfig` at the modelled boundary: a table
with required string fields `file` and `table` and an optional string
`key_format`; unknown keys are ignored (serde default). -/
def decode_import_config : Value → Option ImportConfig
  | .table t =>
    match alookup t "file", alookup t "table" with
    | some (.str f), some (.str tb) =>
      match alookup t "key_format" with
      | none => some ⟨f, tb, none⟩
      | some (.str kf) => some ⟨f, tb, some kf⟩
      | some _ => none
    | _, _ => none
  | _ => none

/-- `extract_config!(config, Vec<ImportConfig>, "import")`: decode every
array element, failing with a `PluginDeserialization` tagged `import`
(serde's message text is abstracted to a fixed string). -/
def decode_import_configs : List Value →
    Except SuperTomlError (List ImportConfig)
  | [] => .ok []
  | v :: rest =>
    match decode_import_config v with
    | none =>
      .error (.pluginDeserialization "import" "invalid import configuration")
    | some c =>
      match decode_import_configs rest with
      | .error e => .error e
      | .ok cs => .ok (c :: cs)

/-- `ImportPlugin::transform_key_with_template` (src/plugins/import.rs lines
113-139): render the `key_format` template in the environment built by
`create_template_environment`, against a context holding the raw key under
`"key"` plus every entry of the resolver's current values (a values entry
named `"key"` overwrites the key variable, as `HashMap::insert` does). -/
def transform_key_with_template (ctx : Ctx) (key : String) (template : String)
    (context : TV) : Except SuperTomlError String :=
  match ctx.render create_template_environment template
      (context.foldl (fun acc kv => ainsert acc kv.1 (toml_value_to_jinja kv.2))
        [("key", JinjaValue.str key)]) with
  | .error (.parse m) =>
    .error (.pluginError "import" ("Failed to parse key_format template: " ++ m))
  | .error (.render m) =>
    .error (.pluginError "import" ("Failed to render key_format template: " ++ m))
  | .ok s => .ok s

/-- The key/value loop of `process_single_import`: compute the final key
(through `key_format` when configured) and insert the pair into the working
values, keeping the pairs inserted before a failure. -/
def import_keys (ctx : Ctx) (icfg : ImportConfig) (vals : TV) :
    List (String × Value) → TV → TV × Except SuperTomlError Unit
  | [], tv => (tv, .ok ())
  | (k, v) :: rest, tv =>
    match icfg.key_format with
    | none => import_keys ctx icfg vals rest (ainsert tv k v)
    | some kf =>
      match transform_key_with_template ctx k kf vals with
      | .error e => (tv, .error e)
      | .ok fk => import_keys ctx icfg vals rest (ainsert tv fk v)

/-- `ImportPlugin::process_single_import` plus `extract_table_from_toml`
(src/plugins/import.rs lines 55-110): load the external file fresh, extract
the named table (with the file path in the error messages), then run the
key/value loop. -/
def process_single_import (ctx : Ctx) (icfg : ImportConfig) (vals : TV)
    (tv : TV) : TV × Except SuperTomlError Unit :=
  match load_toml_file ctx.fs icfg.file with
  | .error e => (tv, .error e)
  | .ok ext =>
    match ext with
    | .table root =>
      match alookup root icfg.table with
      | none =>
        (tv, .error (.tableNotFound
          ("Table '" ++ icfg.table ++ "' not found in file '" ++
            icfg.file ++ "'")))
      | some tval =>
        match tval.asTable with
        | some tdata => import_keys ctx icfg vals tdata tv
        | none =>
          (tv, .error (.tableNotFound
            ("Table '" ++ icfg.table ++ "' in file '" ++ icfg.file ++
              "' is not a table")))
    | _ =>
      (tv, .error (.invalidTableType
        ("Root element in file '" ++ icfg.file ++ "' is not a table")))

/-- The per-entry loop of `ImportPlugin::process`. -/
def import_loop (ctx : Ctx) (vals : TV) :
    List ImportConfig → TV → TV × Except SuperTomlError Unit
  | [], tv => (tv, .ok ())
  | icfg :: rest, tv =>
    match process_single_import ctx icfg vals tv with
    | (tv', .error e) => (tv', .error e)
    | (tv', .ok ()) => import_loop ctx vals rest tv'

/-- `ImportPlugin::process` (src/plugins/import.rs lines 26-50): a
non-array config (including the empty-table default) merges the working
values and returns immediately; otherwise decode the entries, process each,
and merge the working values afterwards. -/
def import_process (ctx : Ctx) (st : Resolver) (tv : TV) (config : Value) :
    Resolver × TV × Except SuperTomlError Unit :=
  match config.asArray with
  | none => (add_values_to_resolver st tv, tv, .ok ())
  | some elems =>
    match decode_import_configs elems with
    | .error e => (st, tv, .error e)
    | .ok icfgs =>
      match import_loop ctx st.values icfgs tv with
      | (tv', .error e) => (st, tv', .error e)
      | (tv', .ok ()) => (add_values_to_resolver st tv', tv', .ok ())

/-- `ReferenceConfig` (src/plugins/reference.rs). -/
structure ReferenceConfig where
  table : Option String

/-- serde decode of `ReferenceConfig`: an optional string field `table`
(serde's message text is abstracted). -/
def decode_reference_config : Value → Except SuperTomlError ReferenceConfig
  | .table t =>
    match alookup t "table" with
    | none => .ok ⟨none⟩
    | some (.str s) => .ok ⟨some s⟩
    | some _ =>
      .error (.pluginDeserialization "reference" "invalid type for field table")
  | _ => .error (.pluginDeserialization "reference" "invalid type: expected a table")

/-- The config lookup in `process_plugins` (src/resolver.rs lines 161-168):
the plugin's sub-table of the reserved `"_"` table, defaulting to an empty
table. -/
def configFor (plugins_table : Option (List (String × Value)))
    (p : PluginId) : Value :=
  match plugins_table with
  | some t =>
    match alookup t p.pname with
    | some c => c
    | none => .table []
  | none => .table []

mutual

/-- `resolve_table_recursive` (src/resolver.rs lines 121-149): cycle check,
push the name, extract the table, partition off the reserved `"_"` config,
run the pipeline, and pop the name — the pop happens only after
`process_plugins` returns `Ok`, because the `?` operators return early. -/
def resolve_table_recursive : Nat → Ctx → Resolver → String →
    Option (Resolver × Except SuperTomlError Unit)
  | 0, _, _, _ => none
  | fuel + 1, ctx, st, table_name =>
    if memStr st.call_stack table_name then
      some (st, .error (.cycleDetected table_name))
    else
      match get_table_from_loaded_file
          { st with call_stack := st.call_stack ++ [table_name] } table_name with
      | .error e =>
        some ({ st with call_stack := st.call_stack ++ [table_name] }, .error e)
      | .ok table =>
        match process_plugins fuel ctx
            ({ st with call_stack := st.call_stack ++ [table_name] }).plugins
            { st with call_stack := st.call_stack ++ [table_name] }
            (table_values_of table)
            ((alookup table "_").bind Value.asTable) with
        | none => none
        | some (st2, _tv2, .error e) => some (st2, .error e)
        | some (st2, _tv2, .ok ()) =>
          some ({ st2 with call_stack := st2.call_stack.dropLast }, .ok ())

/-- `process_plugins` (src/resolver.rs lines 151-183): for each plugin in
pipeline order, look its config up under the table's `"_"` sub-table
(defaulting to an empty table), run it, and wrap any error that is not
already plugin-tagged. -/
def process_plugins : Nat → Ctx → List PluginId → Resolver → TV →
    Option (List (String × Value)) →
    Option (Resolver × TV × Except SuperTomlError Unit)
  | 0, _, _, _, _, _ => none
  | fuel + 1, ctx, ps, st, tv, plugins_table =>
    match ps with
    | [] => some (st, tv, .ok ())
    | p :: rest =>
      match
        (match p with
         | .beforeP => before_process fuel ctx st tv
             (configFor plugins_table p)
         | .importP => some (import_process ctx st tv
             (configFor plugins_table p))
         | .templatingP => some (templating_process ctx st tv)
         | .afterP => after_process fuel ctx st tv
             (configFor plugins_table p)
         | .referenceP => reference_process fuel ctx st tv
             (configFor plugins_table p)) with
      | none => none
      | some (st', tv', .error e) =>
        some (st', tv', .error (wrap_plugin_error p.pname e))
      | some (st', tv', .ok ()) => process_plugins fuel ctx rest st' tv' plugins_table

/-- The name loop shared by `BeforePlugin::process` and
`AfterPlugin::process`: resolve each array element that is a string,
silently skipping non-strings. -/
def resolve_name_list : Nat → Ctx → Resolver → List Value →
    Option (Resolver × Except SuperTomlError Unit)
  | 0, _, _, _ => none
  | fuel + 1, ctx, st, names =>
    match names with
    | [] => some (st, .ok ())
    | v :: rest =>
      match v.asStr with
      | none => resolve_name_list fuel ctx st rest
      | some name =>
        match resolve_table_recursive fuel ctx st name with
        | none => none
        | some (st', .error e) => some (st', .error e)
        | some (st', .ok ()) => resolve_name_list fuel ctx st' rest

/-- `BeforePlugin::process` (src/plugins/before.rs lines 11-28): resolve the
named tables, then merge this frame's working values into the resolver. -/
def before_process : Nat → Ctx → Resolver → TV → Value →
    Option (Resolver × TV × Except SuperTomlError Unit)
  | 0, _, _, _, _ => none
  | fuel + 1, ctx, st, tv, config =>
    match config.asArray with
    | none => some (add_values_to_resolver st tv, tv, .ok ())
    | some names =>
      match resolve_name_list fuel ctx st names with
      | none => none
      | some (st', .error e) => some (st', tv, .error e)
      | some (st', .ok ()) => some (add_values_to_resolver st' tv, tv, .ok ())

/-- `AfterPlugin::process` (src/plugins/after.rs lines 11-26): resolve the
named tables and nothing else — the working values are never merged. -/
def after_process : Nat → Ctx → Resolver → TV → Value →
    Option (Resolver × TV × Except SuperTomlError Unit)
  | 0, _, _, _, _ => none
  | fuel + 1, ctx, st, tv, config =>
    match config.asArray with
    | none => some (st, tv, .ok ())
    | some names =>
      match resolve_name_list fuel ctx st names with
      | none => none
      | some (st', r) => some (st', tv, r)

/-- `ReferencePlugin::process` (src/plugins/reference.rs lines 17-36): a
non-empty table config is decoded and its optional `table` resolved
recursively; afterwards (on success) the working values are merged. -/
def reference_process : Nat → Ctx → Resolver → TV → Value →
    Option (Resolver × TV × Except SuperTomlError Unit)
  | 0, _, _, _, _ => none
  | fuel + 1, ctx, st, tv, config =>
    match
      (match config.asTable with
       | some t =>
         if t.isEmpty then some (st, Except.ok ())
         else
           match decode_reference_config config with
           | .error e => some (st, .error e)
           | .ok rc =>
             match rc.table with
             | some name => resolve_table_recursive fuel ctx st name
             | none => some (st, .ok ())
       | none => some (st, .ok ())) with
    | none => none
    | some (st', .error e) => some (st', tv, .error e)
    | some (st', .ok ()) => some (add_values_to_resolver st' tv, tv, .ok ())

end

/-- `resolve_table_with_meta` (src/resolver.rs lines 86-118): record the
file path, load the document, populate `meta_values` with the nested
`_.args` structure, resolve recursively, and on success move the values
out. -/
def resolve_table_with_meta (fuel : Nat) (ctx : Ctx) (st : Resolver)
    (file_path table_name output_format : String) :
    Option (Resolver × Except SuperTomlError TV) :=
  match load_toml_file ctx.fs file_path with
  | .error e => some ({ st with file_path := some file_path }, .error e)
  | .ok f =>
    match resolve_table_recursive fuel ctx
        { st with
          file_path := some file_path
          toml_file := some f
          meta_values := ainsert st.meta_values "_" (.table
            [("args", .table
              [("file_path", .str file_path),
               ("table_name", .str table_name),
               ("output_format", .str output_format)])]) } table_name with
    | none => none
    | some (st', .error e) => some (st', .error e)
    | some (st', .ok ()) => some ({ st' with values := [] }, .ok st'.values)

/-! ## Formatter (src/formatter.rs) -/

/-- `serde_json::Value` as far as the formatter needs it. -/
inductive Json where
  | null : Json
  | jbool : Bool → Json
  | num : String → Json
  | jstr : String → Json
  | jarr : List Json → Json
  | jobj : List (String × Json) → Json

mutual
/-- `toml_value_to_json` (src/formatter.rs lines 65-86); numeric payloads
are carried as their rendered text. -/
def toml_value_to_json : Value → Json
  | .str s => .jstr s
  | .int i => .num (toString i)
  | .float f => .num f
  | .bool b => .jbool b
  | .arr a => .jarr (tomlListToJson a)
  | .table t => .jobj (tomlTableToJson t)
  | .datetime dt => .jstr dt

def tomlListToJson : List Value → List Json
  | [] => []
  | v :: rest => toml_value_to_json v :: tomlListToJson rest

def tomlTableToJson : List (String × Value) → List (String × Json)
  | [] => []
  | (k, v) :: rest => (k, toml_value_to_json v) :: tomlTableToJson rest
end

/-- JSON string-content escaping (`serde_json`'s compact serializer; the
two escapes that can arise from our payloads: quote and backslash). -/
def jsonEscapeL : List Char → List Char
  | [] => []
  | c :: rest =>
    if c = '"' then '\\' :: '"' :: jsonEscapeL rest
    else if c = '\\' then '\\' :: '\\' :: jsonEscapeL rest
    else c :: jsonEscapeL rest

/-- Comma-join of rendered JSON fragments. -/
def jsonJoin : List String → String
  | [] => ""
  | [s] => s
  | s :: rest => s ++ "," ++ jsonJoin rest

mutual
/-- `serde_json::to_string` (compact) at the modelled boundary. -/
def json_to_string : Json → String
  | .null => "null"
  | .jbool b => if b then "true" else "false"
  | .num s => s
  | .jstr s => "\"" ++ String.mk (jsonEscapeL s.data) ++ "\""
  | .jarr l => "[" ++ jsonJoin (jsonListStrings l) ++ "]"
  | .jobj l => "\x7b" ++ jsonJoin (jsonObjStrings l) ++ "\x7d"

def jsonListStrings : List Json → List String
  | [] => []
  | j :: rest => json_to_string j :: jsonListStrings rest

def jsonObjStrings : List (String × Json) → List String
  | [] => []
  | (k, j) :: rest =>
    ("\"" ++ String.mk (jsonEscapeL k.data) ++ "\":" ++ json_to_string j)
      :: jsonObjStrings rest
end

/-- `str::replace('"', "\\\"")` on character lists: every double quote is
replaced by a backslash followed by the quote. -/
def escL : List Char → List Char
  | [] => []
  | c :: rest => if c = '"' then '\\' :: '"' :: escL rest else c :: escL rest

/-- `json_str.replace('"', "\\\"")` (src/formatter.rs line 112). -/
def escape_quotes (s : String) : String := String.mk (escL s.data)

/-- Every double quote in the character list is immediately preceded by a
backslash; the Boolean flag records whether the previous character was a
backslash. -/
def qeAux : Bool → List Char → Bool
  | _, [] => true
  | prevBS, c :: rest =>
    if c = '"' then prevBS && qeAux false rest else qeAux (c = '\\') rest

/-- Every embedded double quote of the string is escaped (immediately
preceded by a backslash). -/
def quotesEscaped (s : String) : Bool := qeAux false s.data

/-- `value_to_exports_string` (src/formatter.rs lines 101-115): scalars are
rendered verbatim; only arrays and tables go through the JSON rendering
followed by quote escaping. -/
def value_to_exports_string : Value → String
  | .str s => s
  | .int i => toString i
  | .float f => f
  | .bool b => if b then "true" else "false"
  | .datetime dt => dt
  | .arr a => escape_quotes (json_to_string (toml_value_to_json (.arr a)))
  | .table t => escape_quotes (json_to_string (toml_value_to_json (.table t)))

/-- Insertion into a lexicographically sorted list of keys. -/
def insertSorted (x : String) : List String → List String
  | [] => [x]
  | y :: rest => if x < y then x :: y :: rest else y :: insertSorted x rest

/-- `sorted_keys` (src/formatter.rs lines 5-9): the keys in ascending
lexicographic order. -/
def sortStrings : List String → List String
  | [] => []
  | x :: rest => insertSorted x (sortStrings rest)

/-- One `export "KEY=VALUE"` line per key (src/formatter.rs lines 38-44). -/
def exportLines (values : TV) : List String → List String
  | [] => []
  | k :: rest =>
    (match alookup values k with
     | some v => "export \"" ++ k ++ "=" ++ value_to_exports_string v ++ "\""
     | none => "export \"" ++ k ++ "=\"") :: exportLines values rest

/-- Newline join (`Vec::join("\n")`). -/
def joinLines : List String → String
  | [] => ""
  | [s] => s
  | s :: rest => s ++ "\n" ++ joinLines rest

/-- `format_as_exports` (src/formatter.rs lines 35-47). -/
def format_as_exports (values : TV) : Except SuperTomlError String :=
  .ok (joinLines (exportLines values (sortStrings (values.map Prod.fst))))

/-! ## Spec-side model for claim C3 -/

mutual
/-- The transformation claim C3 reads off the spec's words (§4.5), for
comparison with `process_value_with_jinja`: strings with a delimiter are
rendered, arrays are rebuilt by transforming each element, tables are
rebuilt by transforming each field, other scalars pass through. -/
def process_value_spec (render : RenderFn) (value : Value) (context : TV) :
    Except SuperTomlError Value :=
  match value with
  | .str s =>
    if hasDelim s then
      match render [] s (jinjaCtx context) with
      | .error (.parse m) =>
        .error (.pluginError "templating" ("Template error: " ++ m))
      | .error (.render m) =>
        .error (.pluginError "templating" ("Render error: " ++ m))
      | .ok rendered => .ok (.str rendered)
    else .ok (.str s)
  | .arr a =>
    match process_list_spec render a context with
    | .error e => .error e
    | .ok a' => .ok (.arr a')
  | .table t =>
    match process_table_spec render t context with
    | .error e => .error e
    | .ok t' => .ok (.table t')
  | v => .ok v

def process_list_spec (render : RenderFn) (l : List Value) (context : TV) :
    Except SuperTomlError (List Value)  :=
  match l with
  | [] => .ok []
  | v :: rest =>
    match process_value_spec render v context with
    | .error e => .error e
    | .ok v' =>
      match process_list_spec render rest context with
      | .error e => .error e
      | .ok rest' => .ok (v' :: rest')

def process_table_spec (render : RenderFn) (t : List (String × Value))
    (context : TV) : Except SuperTomlError (List (String × Value)) :=
  match t with
  | [] => .ok []
  | (k, v) :: rest =>
    match process_value_spec render v context with
    | .error e => .error e
    | .ok v' =>
      match process_table_spec render rest context with
      | .error e => .error e
      | .ok rest' => .ok ((k, v') :: rest')
end

/-! ## Concrete sessions, documents and rendering oracles used by the
claims -/

/-- A rendering oracle that is never consulted by the runs it is used in
(every template-bearing branch is off those paths). -/
def dummyRender : RenderFn := fun _ _ _ => .error (.render "unused")

/-- A fresh session state over a pre-loaded document, as `Resolver::new`
followed by the load in `resolve_table` produces it. -/
def initResolverWith (ps : List PluginId) (doc : Value) : Resolver :=
  { plugins := ps, values := [], call_stack := [], toml_file := some doc,
    file_path := none, meta_values := [] }

/-- The document of claim C8: `base = \x7bhost = "localhost"\x7d` and
`app = \x7b_.before = ["base"], port = 8080\x7d`. -/
def docC8 : Value := .table
  [("base", .table [("host", .str "localhost")]),
   ("app", .table
     [("_", .table [("before", .arr [.str "base"])]),
      ("port", .int 8080)])]

/-- `Resolver::new` (src/resolver.rs lines 46-55). -/
def newResolver (ps : List PluginId) : Resolver :=
  { plugins := ps, values := [], call_stack := [], toml_file := none,
    file_path := none, meta_values := [] }

/-- The document of the C2 counterexample: table `t` whose `_.import`
config names this very file and table `t` itself. -/
def docC2 : Value := .table
  [("t", .table
    [("_", .table [("import",
        .arr [.table [("file", .str "f.toml"), ("table", .str "t")]])]),
     ("a", .int 1)])]

/-- A document whose table `t` names itself in its `_.before` config. -/
def docBeforeSelf (t : String) : Value := .table
  [(t, .table [("_", .table [("before", .arr [.str t])])])]

/-- A document whose table `t` names itself in its `_.after` config. -/
def docAfterSelf (t : String) : Value := .table
  [(t, .table [("_", .table [("after", .arr [.str t])])])]

/-- A document whose table `t` names itself in its `_.reference` config. -/
def docRefSelf (t : String) : Value := .table
  [(t, .table [("_", .table [("reference", .table [("table", .str t)])])])]

/-- A rendering oracle returning the fixed string `R` for every template. -/
def renderConstR : RenderFn := fun _ _ _ => .ok "R"

/-- A rendering oracle that reports whether the variable `"_"` is present in
the context it is handed — a probe for the meta variable of claim C6. -/
def probeRenderMeta : RenderFn := fun _ _ context =>
  match alookup context "_" with
  | some _ => .ok "meta-present"
  | none => .ok "meta-absent"

/-- The document of claim C6: one table with one templated value that asks
for the meta variable. -/
def docC6 : Value := .table
  [("t", .table [("x", .str "\x7b\x7b _.args.table_name \x7d\x7d")])]

/-- Modelled from the spec (§6, templating boundary): the engine exposes the
environment-lookup functions only when they are registered in the
environment the template is evaluated in; with `MISSING_X` unset,
`env_or` applied to `MISSING_X` and a default yields the default, while
calling it in an environment where it is not registered is a render
failure. -/
def renderEnvOrProbe : RenderFn := fun funcs _ _ =>
  if memStr funcs "env_or" then .ok "fallback"
  else .error (.render "unknown function env_or")

/-- The document of claim C7: one table whose single value invokes
`env_or`. -/
def docC7 : Value := .table
  [("t", .table
    [("x", .str "\x7b\x7b env_or(\x27MISSING_X\x27, \x27fallback\x27) \x7d\x7d")])]

/-- A string value containing a template delimiter — the only kind of value
`process_value_with_jinja` transforms. -/
def isDelimStr : Value → Bool
  | .str s => hasDelim s
  | _ => false

abbrev stackOutcome (stIn stOut : Resolver) (r : Except SuperTomlError Unit)
    (name : String) : Prop :=
  (r = .ok () → stOut.call_stack = stIn.call_stack) ∧
  (∀ e, r = .error e →
    (stOut.call_stack = stIn.call_stack ∧ e = .cycleDetected name ∧
      memStr stIn.call_stack name = true) ∨
    ∃ rest, stOut.call_stack = stIn.call_stack ++ name :: rest)

abbrev stackExtend (stIn stOut : Resolver) (r : Except SuperTomlError Unit) : Prop :=
  (r = .ok () → stOut.call_stack = stIn.call_stack) ∧
  (∀ e, r = .error e → ∃ rest, stOut.call_stack = stIn.call_stack ++ rest)

abbrev ResolveDisc (fuel : Nat) : Prop :=
  ∀ (ctx : Ctx) (st : Resolver) (name : String) (stOut : Resolver)
    (r : Except SuperTomlError Unit),
    resolve_table_recursive fuel ctx st name = some (stOut, r) →
    stackOutcome st stOut r name

abbrev ListDisc (fuel : Nat) : Prop :=
  ∀ (ctx : Ctx) (st : Resolver) (names : List Value) (stOut : Resolver)
    (r : Except SuperTomlError Unit),
    resolve_name_list fuel ctx st names = some (stOut, r) →
    stackExtend st stOut r

abbrev BeforeDisc (fuel : Nat) : Prop :=
  ∀ (ctx : Ctx) (st : Resolver) (tv : TV) (config : Value) (stOut : Resolver)
    (tvOut : TV) (r : Except SuperTomlError Unit),
    before_process fuel ctx st tv config = some (stOut, tvOut, r) →
    stackExtend st stOut r

abbrev AfterDisc (fuel : Nat) : Prop :=
  ∀ (ctx : Ctx) (st : Resolver) (tv : TV) (config : Value) (stOut : Resolver)
    (tvOut : TV) (r : Except SuperTomlError Unit),
    after_process fuel ctx st tv config = some (stOut, tvOut, r) →
    stackExtend st stOut r

abbrev RefDisc (fuel : Nat) : Prop :=
  ∀ (ctx : Ctx) (st : Resolver) (tv : TV) (config : Value) (stOut : Resolver)
    (tvOut : TV) (r : Except SuperTomlError Unit),
    reference_process fuel ctx st tv config = some (stOut, tvOut, r) →
    stackExtend st stOut r

abbrev PluginsDisc (fuel : Nat) : Prop :=
  ∀ (ctx : Ctx) (ps : List PluginId) (st : Resolver) (tv : TV)
    (pt : Option (List (String × Value))) (stOut : Resolver) (tvOut : TV)
    (r : Except SuperTomlError Unit),
    process_plugins fuel ctx ps st tv pt = some (stOut, tvOut, r) →
    stackExtend st stOut r

def stOutC1 : Resolver :=
  { plugins := stdPlugins,
    values := [("host", .str "localhost"), ("port", .int 8080)],
    call_stack := [], toml_file := some docC8, file_path := none,
    meta_values := [] }

/-! ## Helper lemmas -/

theorem qeAux_escL (l : List Char) : ∀ prev, qeAux prev (escL l) = true := by
  induction l with
  | nil => intro prev; rfl
  | cons c rest ih =>
    intro prev
    by_cases hc : c = '"'
    · subst hc
      simp [escL, qeAux, ih]
    · simp [escL, qeAux, hc, ih]

theorem quotesEscaped_escape_quotes (s : String) :
    quotesEscaped (escape_quotes s) = true := qeAux_escL s.data false

theorem dropLast_append_singleton (l : List String) (a : String) :
    (l ++ [a]).dropLast = l := by simp

theorem alookup_ainsert_self {α : Type} (l : List (String × α)) (k : String) (v : α) :
    alookup (ainsert l k v) k = some v := by
  induction l with
  | nil => simp [ainsert, alookup]
  | cons kv rest ih =>
    obtain ⟨k0, v0⟩ := kv
    by_cases h : k0 = k
    · simp [ainsert, alookup, h]
    · simp [ainsert, alookup, h, ih]

theorem alookup_ainsert_other {α : Type} (l : List (String × α)) (k k' : String)
    (v : α) (hne : k' ≠ k) : alookup (ainsert l k' v) k = alookup l k := by
  induction l with
  | nil => simp [ainsert, alookup, hne]
  | cons kv rest ih =>
    obtain ⟨k0, v0⟩ := kv
    by_cases h : k0 = k'
    · subst h
      have : k0 ≠ k := fun hc => hne (hc ▸ rfl)
      simp [ainsert, alookup, this]
    · by_cases h2 : k0 = k
      · subst h2
        simp [ainsert, alookup, h]
      · simp [ainsert, alookup, h, h2, ih]

theorem alookup_add_values_not_mem (vals tv : TV) (k : String)
    (h : keyMem tv k = false) :
    alookup (add_values vals tv) k = alookup vals k := by
  induction tv generalizing vals with
  | nil => rfl
  | cons kv rest ih =>
    obtain ⟨k0, v0⟩ := kv
    have hk0 : ¬ k0 = k := by
      intro hc
      simp [keyMem, hc] at h
    have hrest : keyMem rest k = false := by
      simpa [keyMem, hk0] using h
    rw [show add_values vals ((k0, v0) :: rest) = add_values (ainsert vals k0 v0) rest from rfl,
      ih _ hrest, alookup_ainsert_other _ _ _ _ hk0]

theorem alookup_add_values_mem (vals tv : TV) (k : String) (v : Value)
    (hnd : keysNodup tv = true) (hl : alookup tv k = some v) :
    alookup (add_values vals tv) k = some v := by
  induction tv generalizing vals with
  | nil => nomatch hl
  | cons kv rest ih =>
    obtain ⟨k0, v0⟩ := kv
    have hmem : keyMem rest k0 = false := by
      by_cases hc : keyMem rest k0 = true
      · simp [keysNodup, hc] at hnd
      · simpa using hc
    have hnd' : keysNodup rest = true := by
      simpa [keysNodup, hmem] using hnd
    by_cases hk : k0 = k
    · subst hk
      have hv : v0 = v := by simpa [alookup] using hl
      subst hv
      rw [show add_values vals ((k0, v0) :: rest) = add_values (ainsert vals k0 v0) rest from rfl,
        alookup_add_values_not_mem _ _ _ hmem, alookup_ainsert_self]
    · have hl' : alookup rest k = some v := by simpa [alookup, hk] using hl
      exact ih (ainsert vals k0 v0) hnd' hl'

theorem stackExtend_of_eq {stIn stOut : Resolver} {r : Except SuperTomlError Unit}
    (h : stOut.call_stack = stIn.call_stack) : stackExtend stIn stOut r :=
  ⟨fun _ => h, fun _ _ => ⟨[], by rw [h, List.append_nil]⟩⟩

theorem stackExtend_trans_eq {st st' stOut : Resolver} {r : Except SuperTomlError Unit}
    (h : st'.call_stack = st.call_stack) (hext : stackExtend st' stOut r) :
    stackExtend st stOut r :=
  ⟨fun hok => (hext.1 hok).trans h,
   fun e he => (hext.2 e he).imp fun rest hr => by rw [hr, h]⟩

theorem import_process_call_stack (ctx : Ctx) (st : Resolver) (tv : TV)
    (config : Value) : (import_process ctx st tv config).1.call_stack = st.call_stack := by
  unfold import_process
  repeat' split
  all_goals rfl

theorem templating_process_call_stack (ctx : Ctx) (st : Resolver) (tv : TV) :
    (templating_process ctx st tv).1.call_stack = st.call_stack := by
  unfold templating_process
  repeat' split
  all_goals rfl

set_option maxHeartbeats 1000000 in
theorem allDisc : ∀ fuel : Nat,
    ResolveDisc fuel ∧ ListDisc fuel ∧ BeforeDisc fuel ∧ AfterDisc fuel ∧
    RefDisc fuel ∧ PluginsDisc fuel := by
  intro fuel
  induction fuel with
  | zero =>
    exact ⟨(fun _ _ _ _ _ h => nomatch h), (fun _ _ _ _ _ h => nomatch h),
      (fun _ _ _ _ _ _ _ h => nomatch h), (fun _ _ _ _ _ _ _ h => nomatch h),
      (fun _ _ _ _ _ _ _ h => nomatch h), (fun _ _ _ _ _ _ _ _ h => nomatch h)⟩
  | succ n ih =>
    obtain ⟨ihRes, ihList, ihBefore, ihAfter, ihRef, ihPlugins⟩ := ih
    have hres : ResolveDisc (n + 1) := by
      intro ctx st name stOut r h
      simp only [resolve_table_recursive] at h
      split at h
      case isTrue hm =>
        simp only [Option.some.injEq, Prod.mk.injEq] at h
        obtain ⟨h1, h2⟩ := h
        subst h1; subst h2
        refine ⟨(fun hok => nomatch hok), fun e he => ?_⟩
        have he' : SuperTomlError.cycleDetected name = e := by injection he
        subst he'
        exact Or.inl ⟨rfl, rfl, hm⟩
      case isFalse hm =>
        split at h
        case h_1 e heq =>
          simp only [Option.some.injEq, Prod.mk.injEq] at h
          obtain ⟨h1, h2⟩ := h
          subst h1; subst h2
          exact ⟨(fun hok => nomatch hok), fun e' he' => Or.inr ⟨[], rfl⟩⟩
        case h_2 table heq =>
          split at h
          case h_1 => nomatch h
          case h_2 st2 tv2 e heq2 =>
            simp only [Option.some.injEq, Prod.mk.injEq] at h
            obtain ⟨h1, h2⟩ := h
            subst h1; subst h2
            obtain ⟨rest, hr⟩ := (ihPlugins _ _ _ _ _ _ _ _ heq2).2 e rfl
            refine ⟨(fun hok => nomatch hok), fun e' he' => Or.inr ⟨rest, ?_⟩⟩
            rw [hr]
            simp
          case h_3 st2 tv2 heq2 =>
            simp only [Option.some.injEq, Prod.mk.injEq] at h
            obtain ⟨h1, h2⟩ := h
            subst h1; subst h2
            refine ⟨fun _ => ?_, fun e' he' => nomatch he'⟩
            have hps : st2.call_stack = st.call_stack ++ [name] :=
              (ihPlugins _ _ _ _ _ _ _ _ heq2).1 rfl
            show st2.call_stack.dropLast = st.call_stack
            rw [hps, dropLast_append_singleton]
    have hlist : ListDisc (n + 1) := by
      intro ctx st names stOut r h
      simp only [resolve_name_list] at h
      split at h
      case h_1 =>
        simp only [Option.some.injEq, Prod.mk.injEq] at h
        obtain ⟨h1, h2⟩ := h
        subst h1; subst h2
        exact stackExtend_of_eq rfl
      case h_2 v rest =>
        split at h
        case h_1 => exact ihList _ _ _ _ _ h
        case h_2 name hstr =>
          split at h
          case h_1 => nomatch h
          case h_2 st' e heq =>
            simp only [Option.some.injEq, Prod.mk.injEq] at h
            obtain ⟨h1, h2⟩ := h
            subst h1; subst h2
            refine ⟨(fun hok => nomatch hok), fun e' he' => ?_⟩
            rcases (ihRes _ _ _ _ _ heq).2 e rfl with ⟨hceq, _, _⟩ | ⟨rest2, hr⟩
            · exact ⟨[], by rw [hceq, List.append_nil]⟩
            · exact ⟨name :: rest2, hr⟩
          case h_3 st' heq =>
            exact stackExtend_trans_eq ((ihRes _ _ _ _ _ heq).1 rfl)
              (ihList _ _ _ _ _ h)
    have hbefore : BeforeDisc (n + 1) := by
      intro ctx st tv config stOut tvOut r h
      simp only [before_process] at h
      split at h
      case h_1 =>
        simp only [Option.some.injEq, Prod.mk.injEq] at h
        obtain ⟨h1, h2, h3⟩ := h
        subst h1; subst h3
        exact stackExtend_of_eq rfl
      case h_2 names =>
        split at h
        case h_1 => nomatch h
        case h_2 st' e heq =>
          simp only [Option.some.injEq, Prod.mk.injEq] at h
          obtain ⟨h1, h2, h3⟩ := h
          subst h1; subst h3
          exact ⟨(fun hok => nomatch hok), fun e' he' =>
            (ihList _ _ _ _ _ heq).2 e (by injection he' with hh; rw [hh])⟩
        case h_3 st' heq =>
          simp only [Option.some.injEq, Prod.mk.injEq] at h
          obtain ⟨h1, h2, h3⟩ := h
          subst h1; subst h3
          exact stackExtend_of_eq ((ihList _ _ _ _ _ heq).1 rfl)
    have hafter : AfterDisc (n + 1) := by
      intro ctx st tv config stOut tvOut r h
      simp only [after_process] at h
      split at h
      case h_1 =>
        simp only [Option.some.injEq, Prod.mk.injEq] at h
        obtain ⟨h1, h2, h3⟩ := h
        subst h1; subst h3
        exact stackExtend_of_eq rfl
      case h_2 names =>
        split at h
        case h_1 => nomatch h
        case h_2 st' r0 heq =>
          simp only [Option.some.injEq, Prod.mk.injEq] at h
          obtain ⟨h1, h2, h3⟩ := h
          subst h1; subst h3
          exact ihList _ _ _ _ _ heq
    have href : RefDisc (n + 1) := by
      intro ctx st tv config stOut tvOut r h
      simp only [reference_process] at h
      split at h
      case h_1 => nomatch h
      case h_2 st' e heq =>
        simp only [Option.some.injEq, Prod.mk.injEq] at h
        obtain ⟨h1, h2, h3⟩ := h
        subst h1; subst h3
        refine ⟨(fun hok => nomatch hok), fun e' he' => ?_⟩
        split at heq
        case h_1 t =>
          split at heq
          case isTrue => simp at heq
          case isFalse =>
            split at heq
            case h_1 e0 hdec =>
              simp only [Option.some.injEq, Prod.mk.injEq] at heq
              exact ⟨[], by rw [← heq.1, List.append_nil]⟩
            case h_2 rc hdec =>
              split at heq
              case h_1 nm hrc =>
                rcases (ihRes _ _ _ _ _ heq).2 e rfl with ⟨hceq, _, _⟩ | ⟨rest2, hr⟩
                · exact ⟨[], by rw [hceq, List.append_nil]⟩
                · exact ⟨nm :: rest2, hr⟩
              case h_2 hrc => simp at heq
        case h_2 => simp at heq
      case h_3 st' heq =>
        simp only [Option.some.injEq, Prod.mk.injEq] at h
        obtain ⟨h1, h2, h3⟩ := h
        subst h1; subst h3
        refine stackExtend_of_eq ?_
        show st'.call_stack = st.call_stack
        split at heq
        case h_1 t =>
          split at heq
          case isTrue =>
            simp only [Option.some.injEq, Prod.mk.injEq] at heq
            rw [← heq.1]
          case isFalse =>
            split at heq
            case h_1 e0 hdec => simp at heq
            case h_2 rc hdec =>
              split at heq
              case h_1 nm hrc => exact (ihRes _ _ _ _ _ heq).1 rfl
              case h_2 hrc =>
                simp only [Option.some.injEq, Prod.mk.injEq] at heq
                rw [← heq.1]
        case h_2 =>
          simp only [Option.some.injEq, Prod.mk.injEq] at heq
          rw [← heq.1]
    have hplugins : PluginsDisc (n + 1) := by
      intro ctx ps st tv pt stOut tvOut r h
      simp only [process_plugins] at h
      split at h
      case h_1 =>
        simp only [Option.some.injEq, Prod.mk.injEq] at h
        obtain ⟨h1, h2, h3⟩ := h
        subst h1; subst h3
        exact stackExtend_of_eq rfl
      case h_2 p rest =>
        split at h
        case h_1 => nomatch h
        case h_2 st' tv' e heq =>
          simp only [Option.some.injEq, Prod.mk.injEq] at h
          obtain ⟨h1, h2, h3⟩ := h
          subst h1; subst h3
          refine ⟨(fun hok => nomatch hok), fun e' he' => ?_⟩
          cases p
          case beforeP => exact (ihBefore _ _ _ _ _ _ _ heq).2 e rfl
          case importP =>
            simp only [Option.some.injEq] at heq
            have h1 : (import_process ctx st tv
                (configFor pt PluginId.importP)).1 = st' := by rw [heq]
            refine ⟨[], ?_⟩
            rw [← h1, import_process_call_stack, List.append_nil]
          case templatingP =>
            simp only [Option.some.injEq] at heq
            have h1 : (templating_process ctx st tv).1 = st' := by rw [heq]
            refine ⟨[], ?_⟩
            rw [← h1, templating_process_call_stack, List.append_nil]
          case afterP => exact (ihAfter _ _ _ _ _ _ _ heq).2 e rfl
          case referenceP => exact (ihRef _ _ _ _ _ _ _ heq).2 e rfl
        case h_3 st' tv' heq =>
          have hstep : st'.call_stack = st.call_stack := by
            cases p
            case beforeP => exact (ihBefore _ _ _ _ _ _ _ heq).1 rfl
            case importP =>
              simp only [Option.some.injEq] at heq
              have h1 : (import_process ctx st tv
                  (configFor pt PluginId.importP)).1 = st' := by rw [heq]
              rw [← h1, import_process_call_stack]
            case templatingP =>
              simp only [Option.some.injEq] at heq
              have h1 : (templating_process ctx st tv).1 = st' := by rw [heq]
              rw [← h1, templating_process_call_stack]
            case afterP => exact (ihAfter _ _ _ _ _ _ _ heq).1 rfl
            case referenceP => exact (ihRef _ _ _ _ _ _ _ heq).1 rfl
          exact stackExtend_trans_eq hstep (ihPlugins _ _ _ _ _ _ _ _ h)
    exact ⟨hres, hlist, hbefore, hafter, href, hplugins⟩

theorem isTagged_wrap_plugin_error (p : String) (e : SuperTomlError) :
    isTaggedError (wrap_plugin_error p e) = true := by
  cases e <;> rfl

/-! ## Claims -/

/-- C8 (confirmed): for the document with `base = \x7bhost = "localhost"\x7d`
and `app = \x7b_.before = ["base"], port = 8080\x7d`, resolving `app`
through the standard pipeline succeeds and returns exactly the mapping
`\x7bhost: "localhost", port: 8080\x7d` — for every rendering capability and
every further content of the file system, neither of which this run
consults. -/
theorem c8_before_example_resolves :
    ∀ (render : RenderFn) (fsRest : List (String × Value)),
    (resolve_table_with_meta 12 ⟨render, ("app.toml", docC8) :: fsRest⟩
      (newResolver stdPlugins) "app.toml" "app" "toml").map (fun p => p.2) =
    some (.ok [("host", .str "localhost"), ("port", .int 8080)]) :=
  fun _ _ => rfl

/-- C10 (confirmed): for every frame whose import config value is not an
array — the empty-table default included — the import plugin succeeds
without consulting the file system or reporting a config-decode error, and
still merges the frame's working values into the resolver's values. -/
theorem c10_import_non_array_config :
    (∀ (ctx : Ctx) (st : Resolver) (tv : TV) (config : Value),
      config.asArray = none →
      import_process ctx st tv config =
        (add_values_to_resolver st tv, tv, .ok ())) ∧
    (Value.table []).asArray = none := by
  constructor
  · intro ctx st tv config h
    unfold import_process
    rw [h]
  · rfl

theorem c10_import_non_array_config_witness :
    import_process ⟨dummyRender, []⟩ (newResolver stdPlugins)
      [("k", .int 1)] (.table []) =
    (add_values_to_resolver (newResolver stdPlugins) [("k", .int 1)],
      [("k", .int 1)], .ok ()) :=
  c10_import_non_array_config.1 _ _ _ _ rfl

/-- C9 (counterexample): a plain string value with an embedded double quote
is emitted verbatim by the shell-exports formatter — the quote is not
escaped, and the full output line contains an unescaped interior double
quote. -/
theorem c9_plain_string_quote_unescaped :
    value_to_exports_string (.str "a\"b") = "a\"b" ∧
    quotesEscaped "a\"b" = false ∧
    format_as_exports [("K", .str "a\"b")] = .ok "export \"K=a\"b\"" :=
  ⟨rfl, by decide, rfl⟩

/-- C9 (amended): the shell-exports formatter escapes every embedded double
quote in the rendered value of array and table entries (their JSON
rendering passes through the quote-escaping replacement), while plain
string values — and the other scalar kinds — are rendered verbatim, so their
embedded double quotes are not escaped. -/
theorem c9_exports_escaping_by_kind :
    (∀ a, quotesEscaped (value_to_exports_string (.arr a)) = true) ∧
    (∀ tb, quotesEscaped (value_to_exports_string (.table tb)) = true) ∧
    (∀ s, value_to_exports_string (.str s) = s) :=
  ⟨fun _ => quotesEscaped_escape_quotes _,
   fun _ => quotesEscaped_escape_quotes _,
   fun _ => rfl⟩

/-- C3 (counterexample): on an array containing a template string, the
code's `process_value_with_jinja` returns the array unchanged, while the
transformation the claim describes (embodied by `process_value_spec`)
rebuilds the array with the element rendered — here with a rendering
capability that renders every template to `"R"`. -/
theorem c3_array_elements_not_transformed :
    process_value_with_jinja renderConstR (.arr [.str "\x7b\x7bx\x7d\x7d"]) []
      = .ok (.arr [.str "\x7b\x7bx\x7d\x7d"]) ∧
    process_value_spec renderConstR (.arr [.str "\x7b\x7bx\x7d\x7d"]) []
      = .ok (.arr [.str "R"]) := by
  constructor
  · rfl
  · simp only [process_value_spec, process_list_spec]
    rfl

/-- C3 (amended): the templating plugin transforms only top-level string
values — a string containing a template delimiter is replaced by its
rendering against the full current resolved values — while every other
value, arrays and tables included (whose elements and fields are not
recursed into), passes through unchanged. -/
theorem c3_templating_shallow_transform :
    (∀ (render : RenderFn) (s : String) (context : TV) (out : String),
      hasDelim s = true → render [] s (jinjaCtx context) = .ok out →
      process_value_with_jinja render (.str s) context = .ok (.str out)) ∧
    (∀ (render : RenderFn) (v : Value) (context : TV),
      isDelimStr v = false →
      process_value_with_jinja render v context = .ok v) := by
  constructor
  · intro render s context out h hr
    simp [process_value_with_jinja, h, hr]
  · intro render v context h
    cases v <;> simp_all [process_value_with_jinja, isDelimStr]

theorem c3_templating_shallow_transform_witness :
    process_value_with_jinja renderConstR (.str "\x7b\x7bx\x7d\x7d") []
      = .ok (.str "R") ∧
    process_value_with_jinja renderConstR (.arr [.str "\x7b\x7bx\x7d\x7d"]) []
      = .ok (.arr [.str "\x7b\x7bx\x7d\x7d"]) :=
  ⟨c3_templating_shallow_transform.1 renderConstR _ [] "R" rfl rfl,
   c3_templating_shallow_transform.2 renderConstR _ [] rfl⟩

/-- C6 (code bug): resolving table `t` of a document whose only value is a
template, through `resolve_table_with_meta` with a rendering oracle that
reports whether the variable `"_"` is present in the context it receives:
the rendered result shows the meta variable is absent from the template's
variable context, even though the session's `meta_values` were populated
with the full `_.args` structure — which no code ever passes on. -/
theorem c6_meta_variable_absent_from_template_context :
    (resolve_table_with_meta 12 ⟨probeRenderMeta, [("f.toml", docC6)]⟩
      (newResolver stdPlugins) "f.toml" "t" "json").map
        (fun p => (p.2, alookup p.1.meta_values "_")) =
    some (.ok [("x", .str "meta-absent")],
      some (.table [("args", .table
        [("file_path", .str "f.toml"), ("table_name", .str "t"),
         ("output_format", .str "json")])])) := rfl

/-- C7 (code bug): a value `"\x7b\x7b env_or(...) \x7d\x7d"` resolved through
the templating step fails with a render error, because
`process_value_with_jinja` renders in a fresh environment with no custom
functions registered instead of the one built by
`create_template_environment`; the same oracle applied in the environment
with `env_or` registered would have produced `"fallback"`. -/
theorem c7_env_or_unavailable_in_value_templates :
    (resolve_table_with_meta 12 ⟨renderEnvOrProbe, [("f.toml", docC7)]⟩
      (newResolver stdPlugins) "f.toml" "t" "toml").map (fun p => p.2) =
    some (.error (.pluginError "templating"
      "Render error: unknown function env_or")) ∧
    renderEnvOrProbe create_template_environment
      "\x7b\x7b env_or(\x27MISSING_X\x27, \x27fallback\x27) \x7d\x7d" []
      = .ok "fallback" := ⟨rfl, rfl⟩

/-- C2 (counterexample): a table whose import config names the table itself
(same file, same table) resolves successfully — no `CycleDetected`, wrapped
or not — because the import plugin loads the file and copies the raw
entries instead of triggering recursive resolution. -/
theorem c2_import_self_reference_succeeds :
    (resolve_table_recursive 12 ⟨dummyRender, [("f.toml", docC2)]⟩
      (initResolverWith stdPlugins docC2) "t").map (fun p => p.2) =
    some (.ok ()) := rfl

/-- C2 (amended): for every table name, a table naming itself in its
before, after, or reference plugin config always makes resolution of that
table fail with `CycleDetected` wrapped as a `PluginError` attributed to
that plugin — the recursive resolution those three plugins trigger is
rejected by the call-stack check; the import plugin triggers no recursive
resolution (see the counterexample), so it is not among them. -/
theorem c2_self_reference_cycle :
    ∀ (t : String) (render : RenderFn) (fs : List (String × Value)),
    (resolve_table_recursive 5 ⟨render, fs⟩
      (initResolverWith stdPlugins (docBeforeSelf t)) t).map (fun p => p.2) =
      some (.error (.pluginError "before" (errMsg (.cycleDetected t)))) ∧
    (resolve_table_recursive 8 ⟨render, fs⟩
      (initResolverWith stdPlugins (docAfterSelf t)) t).map (fun p => p.2) =
      some (.error (.pluginError "after" (errMsg (.cycleDetected t)))) ∧
    (resolve_table_recursive 4 ⟨render, fs⟩
      (initResolverWith [.referenceP] (docRefSelf t)) t).map (fun p => p.2) =
      some (.error (.pluginError "reference" (errMsg (.cycleDetected t)))) := by
  intro t render fs
  refine ⟨?_, ?_, ?_⟩ <;>
    simp [resolve_table_recursive, process_plugins, before_process,
      after_process, reference_process, resolve_name_list, import_process,
      templating_process, process_entries, get_table_from_loaded_file,
      table_values_of, configFor, alookup, memStr, wrap_plugin_error,
      add_values_to_resolver, add_values, Value.asArray, Value.asStr,
      Value.asTable, PluginId.pname, decode_reference_config,
      initResolverWith, docBeforeSelf, docAfterSelf, docRefSelf, errMsg,
      stdPlugins]

/-- C1 (counterexample): resolving a missing table pushes the name and then
returns the `TableNotFound` error without popping: the call stack at exit
is `["missing"]`, not the empty stack it was on entry. -/
theorem c1_stack_not_restored_on_error :
    (resolve_table_recursive 5 ⟨dummyRender, []⟩
      (initResolverWith stdPlugins (.table [])) "missing").map
        (fun p => (p.1.call_stack, p.2)) =
    some (["missing"], .error (.tableNotFound "missing")) ∧
    (initResolverWith stdPlugins (.table [])).call_stack = [] := ⟨rfl, rfl⟩

/-- C1 (amended): when `resolve_table_recursive` returns with success, the
call stack equals its value at entry; but not on every exit path — when the
cycle check at entry fires the stack is returned unchanged (nothing was
pushed), and on any other error (table missing, invalid table type, plugin
failure) the name pushed on entry remains on the stack, followed by the
names of any deeper unfinished resolutions.  There is no pop on the error
paths. -/
theorem c1_call_stack_discipline :
    ∀ (fuel : Nat) (ctx : Ctx) (st : Resolver) (name : String)
      (stOut : Resolver) (r : Except SuperTomlError Unit),
      resolve_table_recursive fuel ctx st name = some (stOut, r) →
      (r = .ok () → stOut.call_stack = st.call_stack) ∧
      (∀ e, r = .error e →
        (stOut.call_stack = st.call_stack ∧ e = .cycleDetected name ∧
          memStr st.call_stack name = true) ∨
        ∃ rest, stOut.call_stack = st.call_stack ++ name :: rest) :=
  fun fuel ctx st name stOut r h => (allDisc fuel).1 ctx st name stOut r h

theorem c1_call_stack_discipline_witness :
    resolve_table_recursive 12 ⟨dummyRender, []⟩
        (initResolverWith stdPlugins docC8) "app" = some (stOutC1, .ok ()) ∧
      stOutC1.call_stack = (initResolverWith stdPlugins docC8).call_stack :=
  ⟨rfl, (c1_call_stack_discipline 12 ⟨dummyRender, []⟩
    (initResolverWith stdPlugins docC8) "app" stOutC1 (.ok ()) rfl).1 rfl⟩

/-- C4 (confirmed): whenever the before plugin succeeds it has merged the
frame's working values into the resolver's values (after resolving the
tables named in an array config — the merge target is the post-resolution
state), leaving the working values themselves untouched; the after plugin
never merges: it leaves the working values untouched, with an empty
(defaulted) config it returns the resolver state unchanged, and with an
array config its entire effect on resolver state is exactly that of
resolving the named tables. -/
theorem c4_before_merges_after_does_not :
    (∀ (fuel : Nat) (ctx : Ctx) (st : Resolver) (tv : TV) (config : Value)
       (stOut : Resolver) (tvOut : TV),
      before_process fuel ctx st tv config = some (stOut, tvOut, .ok ()) →
      tvOut = tv ∧
      ∀ k v, keysNodup tv = true → alookup tv k = some v →
        alookup stOut.values k = some v) ∧
    (∀ (fuel : Nat) (ctx : Ctx) (st : Resolver) (tv : TV) (names : List Value)
       (stOut : Resolver) (tvOut : TV),
      before_process (fuel + 1) ctx st tv (.arr names)
          = some (stOut, tvOut, .ok ()) →
      ∃ stMid, resolve_name_list fuel ctx st names = some (stMid, .ok ()) ∧
        stOut = add_values_to_resolver stMid tv) ∧
    (∀ (fuel : Nat) (ctx : Ctx) (st : Resolver) (tv : TV) (config : Value)
       (stOut : Resolver) (tvOut : TV) (r : Except SuperTomlError Unit),
      after_process fuel ctx st tv config = some (stOut, tvOut, r) →
      tvOut = tv) ∧
    (∀ (fuel : Nat) (ctx : Ctx) (st : Resolver) (tv : TV),
      after_process (fuel + 1) ctx st tv (.table []) = some (st, tv, .ok ())) ∧
    (∀ (fuel : Nat) (ctx : Ctx) (st : Resolver) (tv : TV) (names : List Value)
       (stOut : Resolver) (tvOut : TV) (r : Except SuperTomlError Unit),
      after_process (fuel + 1) ctx st tv (.arr names) = some (stOut, tvOut, r) →
      resolve_name_list fuel ctx st names = some (stOut, r)) := by
  refine ⟨?_, ?_, ?_, ?_, ?_⟩
  · intro fuel ctx st tv config stOut tvOut h
    match fuel with
    | 0 => nomatch h
    | n + 1 =>
      simp only [before_process] at h
      split at h
      case h_1 =>
        simp only [Option.some.injEq, Prod.mk.injEq] at h
        obtain ⟨h1, h2, _⟩ := h
        subst h1; subst h2
        exact ⟨rfl, fun k v hnd hl => alookup_add_values_mem _ _ _ _ hnd hl⟩
      case h_2 names =>
        split at h
        case h_1 => nomatch h
        case h_2 st' e heq => simp at h
        case h_3 st' heq =>
          simp only [Option.some.injEq, Prod.mk.injEq] at h
          obtain ⟨h1, h2, _⟩ := h
          subst h1; subst h2
          exact ⟨rfl, fun k v hnd hl => alookup_add_values_mem _ _ _ _ hnd hl⟩
  · intro fuel ctx st tv names stOut tvOut h
    simp only [before_process, Value.asArray] at h
    split at h
    case h_1 => nomatch h
    case h_2 st' e heq => simp at h
    case h_3 st' heq =>
      simp only [Option.some.injEq, Prod.mk.injEq] at h
      obtain ⟨h1, _, _⟩ := h
      subst h1
      exact ⟨st', heq, rfl⟩
  · intro fuel ctx st tv config stOut tvOut r h
    match fuel with
    | 0 => nomatch h
    | n + 1 =>
      simp only [after_process] at h
      split at h
      case h_1 =>
        simp only [Option.some.injEq, Prod.mk.injEq] at h
        exact h.2.1.symm
      case h_2 names =>
        split at h
        case h_1 => nomatch h
        case h_2 st' r0 heq =>
          simp only [Option.some.injEq, Prod.mk.injEq] at h
          exact h.2.1.symm
  · intro fuel ctx st tv
    rfl
  · intro fuel ctx st tv names stOut tvOut r h
    simp only [after_process, Value.asArray] at h
    split at h
    case h_1 => nomatch h
    case h_2 st' r0 heq =>
      simp only [Option.some.injEq, Prod.mk.injEq] at h
      obtain ⟨h1, _, h3⟩ := h
      subst h1; subst h3
      exact heq

theorem c4_before_merges_after_does_not_witness :
    before_process 1 ⟨dummyRender, []⟩ (newResolver stdPlugins)
        [("k", Value.int 1)] (.table [])
      = some (add_values_to_resolver (newResolver stdPlugins)
          [("k", Value.int 1)], [("k", Value.int 1)], .ok ()) ∧
    alookup (add_values_to_resolver (newResolver stdPlugins)
        [("k", Value.int 1)]).values "k" = some (.int 1) ∧
    after_process 1 ⟨dummyRender, []⟩ (newResolver stdPlugins)
        [("k", Value.int 1)] (.table [])
      = some (newResolver stdPlugins, [("k", Value.int 1)], .ok ()) := by
  refine ⟨rfl, ?_, c4_before_merges_after_does_not.2.2.2.1 0 ⟨dummyRender, []⟩
    (newResolver stdPlugins) [("k", Value.int 1)]⟩
  exact (c4_before_merges_after_does_not.1 1 ⟨dummyRender, []⟩
    (newResolver stdPlugins) [("k", Value.int 1)] (.table []) _ _ rfl).2 "k"
    (.int 1) rfl rfl

/-- C5 (confirmed): the resolver's error wrapping leaves errors already
tagged as `PluginError`/`PluginDeserialization` unchanged, wraps every
other error as a `PluginError` attributed to the current plugin with the
original error's display text, and consequently every error that leaves
`process_plugins` is plugin-tagged — nested recursive resolutions never
double-wrap. -/
theorem c5_error_wrapping_discipline :
    (∀ (pname : String) (e : SuperTomlError), isTaggedError e = true →
      wrap_plugin_error pname e = e) ∧
    (∀ (pname : String) (e : SuperTomlError), isTaggedError e = false →
      wrap_plugin_error pname e = .pluginError pname (errMsg e)) ∧
    (∀ (fuel : Nat) (ctx : Ctx) (ps : List PluginId) (st : Resolver) (tv : TV)
       (pt : Option (List (String × Value))) (stOut : Resolver) (tvOut : TV)
       (e : SuperTomlError),
      process_plugins fuel ctx ps st tv pt = some (stOut, tvOut, .error e) →
      isTaggedError e = true) := by
  refine ⟨?_, ?_, ?_⟩
  · intro pname e h
    cases e <;> simp_all [isTaggedError, wrap_plugin_error]
  · intro pname e h
    cases e <;> simp_all [isTaggedError, wrap_plugin_error]
  · intro fuel
    induction fuel with
    | zero => intro _ _ _ _ _ _ _ _ h; nomatch h
    | succ n ih =>
      intro ctx ps st tv pt stOut tvOut e h
      simp only [process_plugins] at h
      split at h
      case h_1 => simp at h
      case h_2 p rest =>
        split at h
        case h_1 => nomatch h
        case h_2 st' tv' e0 heq =>
          simp only [Option.some.injEq, Prod.mk.injEq, Except.error.injEq] at h
          obtain ⟨_, _, h3⟩ := h
          rw [← h3]
          exact isTagged_wrap_plugin_error _ _
        case h_3 st' tv' heq =>
          exact ih _ _ _ _ _ _ _ _ h

theorem c5_error_wrapping_discipline_witness :
    wrap_plugin_error "before" (.pluginError "x" "m") = .pluginError "x" "m" ∧
    wrap_plugin_error "before" (.cycleDetected "t")
      = .pluginError "before" "Cycle detected when processing table 't'" ∧
    isTaggedError (SuperTomlError.pluginError "before"
      "Table 'other' not found") = true := by
  refine ⟨c5_error_wrapping_discipline.1 "before" _ rfl,
    c5_error_wrapping_discipline.2.1 "before" _ rfl, ?_⟩
  exact c5_error_wrapping_discipline.2.2 9 ⟨dummyRender, []⟩ stdPlugins
    (initResolverWith stdPlugins (.table [])) []
    (some [("before", .arr [.str "other"])]) _ _ _ rfl
